import Mathlib

/-!
Verification of the goxtag declarative HTML decoder.

The embedding follows the newest variant of the source (the one with
`findForTypeByTag`, `xpath_required` handling and `XPath`-carrying error
frames), together with `document.go` (Selection operations) and the
error-chain renderer (`errChain`, `unwind`, `tPath`).

External collaborators (the html parser and the xpath engine) are modelled
as parameters: a selector engine is a function from a node and a selector
string to the list of matching nodes, and the parser is a total function
from raw bytes to a root node (html.Parse over a bytes.Reader never
returns an error).

Go `reflect` values are embedded as a pair of a type (`GoTyp`) and a value
(`GoVal`); machine integers use `Int`/`Nat` with the explicit 2^63 / 2^64
range checks of `strconv`.
-/

set_option maxHeartbeats 1000000

namespace Goxtag

/-- An html node: element (with tag name, attributes, children), text, or
comment.  Mirrors the `html.Node` shapes traversed by `Document.Text`
(text and comment nodes are leaves in the html tree). -/
inductive HNode : Type where
  | elem (tag : String) (attrs : List (String × String)) (children : List HNode)
  | text (data : String)
  | comment (data : String)
deriving Repr, Inhabited

/-- `Document` from document.go: an ordered node set. -/
structure Document where
  Nodes : List HNode
deriving Repr, Inhabited

mutual
/-- The recursive body of `Document.Text` (document.go): write the data of
text nodes, recurse into all children, in document order, no trimming. -/
def nodeText : HNode → String
  | .text d => d
  | .comment _ => ""
  | .elem _ _ cs => childrenText cs

def childrenText : List HNode → String
  | [] => ""
  | c :: cs => nodeText c ++ childrenText cs
end

/-- `Document.Text` (document.go): concatenation of the raw character data
of all text-bearing descendants of all nodes, in document order. -/
def Document.Text (doc : Document) : String :=
  childrenText doc.Nodes

/-- `Document.Length` (document.go). -/
def Document.Length (doc : Document) : Nat :=
  doc.Nodes.length

/-- Modelled from the spec: `Document.IsEmpty` is referenced by
`unmarshalStruct` but absent from src/; §3 lists `isEmpty` among the
Selection operations, the emptiness test of the node set. -/
def Document.IsEmpty (doc : Document) : Bool :=
  doc.Nodes.length == 0

/-- Go `maxInt` sentinel from document.go (`int(^uint(0) >> 1)`). -/
def maxIntGo : Int := 2 ^ 63 - 1

/-- `Document.Slice` (document.go): half-open slice with negative-index
and open-end (`maxInt`) support.  Go's `Nodes[start:end]` panics out of
range; the model totalizes it with drop/take. -/
def Document.Slice (doc : Document) (lo hi : Int) : Document :=
  let n : Int := doc.Nodes.length
  let lo' := if lo < 0 then lo + n else lo
  let hi' := if hi == maxIntGo then n else if hi < 0 then hi + n else hi
  ⟨(doc.Nodes.drop lo'.toNat).take (hi' - lo').toNat⟩

/-- `Document.Eq` (document.go): negative indices count from the end,
out-of-range yields an empty Document, otherwise `Slice index (index+1)`. -/
def Document.Eq (doc : Document) (index : Int) : Document :=
  let n : Int := doc.Nodes.length
  let i := if index < 0 then index + n else index
  if i ≥ n ∨ i < 0 then ⟨[]⟩ else doc.Slice i (i + 1)

/-- The external xpath engine (consumed interface, §6): a node and a
selector expression yield the ordered list of matching nodes. -/
abbrev SelEngine := HNode → String → List HNode

/-- The node list produced by `Document.Find`: the engine runs against the
first node (`htmlquery.Find(doc.Nodes[0], selector)`); Go panics on an
empty receiver, which the decode flow never produces — the model returns
the empty list there. -/
def findNodes (eng : SelEngine) (doc : Document) (sel : String) : List HNode :=
  match doc.Nodes with
  | [] => []
  | n :: _ => eng n sel

/-- `Document.Find` (document.go): delegate to the external engine. -/
def Document.Find (eng : SelEngine) (doc : Document) (sel : String) : Document :=
  ⟨findNodes eng doc sel⟩

/-- Go `unicode.IsSpace` restricted to the ASCII whitespace characters. -/
def goIsSpace (c : Char) : Bool :=
  c = ' ' ∨ c = '\t' ∨ c = '\n' ∨ c = '\r' ∨ c = Char.ofNat 11 ∨ c = Char.ofNat 12

/-- Go `strings.TrimSpace`. -/
def goTrimSpace (s : String) : String :=
  ⟨((s.toList.dropWhile goIsSpace).reverse.dropWhile goIsSpace).reverse⟩

/-- One character of Go `%q` quoting (printable-ASCII fragment of
`strconv.Quote`). -/
def goQuoteChar (c : Char) : List Char :=
  if c = '"' then ['\\', '"']
  else if c = '\\' then ['\\', '\\']
  else if c = '\n' then ['\\', 'n']
  else if c = '\t' then ['\\', 't']
  else if c = '\r' then ['\\', 'r']
  else [c]

/-- Go `%q` formatting of a string. -/
def goQuote (s : String) : String :=
  ⟨'"' :: (s.toList.map goQuoteChar).flatten ++ ['"']⟩

/-- Base-10 value of a digit list. -/
def digitsToNat (ds : List Char) : Nat :=
  ds.foldl (fun acc c => acc * 10 + (c.toNat - '0'.toNat)) 0

/-- Go `strconv.ParseBool`: exactly the listed literals. -/
def goParseBool (s : String) : Except String Bool :=
  if s = "1" ∨ s = "t" ∨ s = "T" ∨ s = "true" ∨ s = "TRUE" ∨ s = "True" then .ok true
  else if s = "0" ∨ s = "f" ∨ s = "F" ∨ s = "false" ∨ s = "FALSE" ∨ s = "False" then .ok false
  else .error ("strconv.ParseBool: parsing " ++ goQuote s ++ ": invalid syntax")

/-- Go `strconv.ParseInt(s, 10, 64)`: optional sign, decimal digits,
signed 64-bit range check. -/
def goParseInt (s : String) : Except String Int :=
  let cs := s.toList
  let signed : Bool × List Char :=
    match cs with
    | '+' :: r => (false, r)
    | '-' :: r => (true, r)
    | r => (false, r)
  let neg := signed.1
  let ds := signed.2
  if ds.isEmpty ∨ ¬ ds.all Char.isDigit then
    .error ("strconv.ParseInt: parsing " ++ goQuote s ++ ": invalid syntax")
  else
    let n := digitsToNat ds
    if (¬ neg ∧ n > 2 ^ 63 - 1) ∨ (neg ∧ n > 2 ^ 63) then
      .error ("strconv.ParseInt: parsing " ++ goQuote s ++ ": value out of range")
    else .ok (if neg then -(n : Int) else (n : Int))

/-- Go `strconv.ParseUint(s, 10, 64)`: no sign allowed, decimal digits,
unsigned 64-bit range check. -/
def goParseUint (s : String) : Except String Nat :=
  let cs := s.toList
  if cs.isEmpty ∨ ¬ cs.all Char.isDigit then
    .error ("strconv.ParseUint: parsing " ++ goQuote s ++ ": invalid syntax")
  else
    let n := digitsToNat cs
    if n > 2 ^ 64 - 1 then
      .error ("strconv.ParseUint: parsing " ++ goQuote s ++ ": value out of range")
    else .ok n

/-- Modelled from the spec: `strconv.ParseFloat` is external library code;
§4.3 fixes "floats follow standard decimal/exponent literals".  Decimal
and exponent literals parse to their exact rational value; anything else
is a syntax error. -/
def goParseFloat (s : String) : Except String Rat :=
  let err : Except String Rat :=
    .error ("strconv.ParseFloat: parsing " ++ goQuote s ++ ": invalid syntax")
  let cs := s.toList
  let signed : Bool × List Char :=
    match cs with
    | '+' :: r => (false, r)
    | '-' :: r => (true, r)
    | r => (false, r)
  let neg := signed.1
  let body := signed.2
  let mant := body.takeWhile (fun c => c ≠ 'e' ∧ c ≠ 'E')
  let expPart := body.drop mant.length
  let ip := mant.takeWhile (fun c => c ≠ '.')
  let dotPart := mant.drop ip.length
  let fp := dotPart.drop 1
  if ¬ (dotPart.isEmpty ∨ dotPart.take 1 = ['.']) then err
  else if ¬ ip.all Char.isDigit ∨ ¬ fp.all Char.isDigit ∨ (ip.isEmpty ∧ fp.isEmpty) then err
  else
    let expVal : Option Int :=
      match expPart with
      | [] => some 0
      | _ :: r =>
        let esigned : Bool × List Char :=
          match r with
          | '+' :: r2 => (false, r2)
          | '-' :: r2 => (true, r2)
          | r2 => (false, r2)
        if esigned.2.isEmpty ∨ ¬ esigned.2.all Char.isDigit then none
        else some (if esigned.1 then -(digitsToNat esigned.2 : Int) else (digitsToNat esigned.2 : Int))
    match expVal with
    | none => err
    | some e =>
      let q : Rat := (digitsToNat (ip ++ fp) : Rat) / (10 : Rat) ^ fp.length * (10 : Rat) ^ e
      .ok (if neg then -q else q)

/-! ## Directives and destination types -/

/-- `xpathTag` (unmarshal.go): the parsed per-field directive. -/
structure XpathTag where
  tag : String
  required : Bool
deriving Repr, DecidableEq, Inhabited

/-- Constants `tagName`, `ignoreTag`, `requiredTag` (unmarshal.go). -/
def ignoreTag : String := "-"

/-- `indexRegEx = \[\d+\]$` applied to a string: does it end in a
bracketed run of one or more digits? -/
def hasIndexSuffix (s : String) : Bool :=
  match s.toList.reverse with
  | ']' :: rest =>
    let ds := rest.takeWhile Char.isDigit
    (!ds.isEmpty) && (match rest.drop ds.length with
      | '[' :: _ => true
      | _ => false)
  | _ => false

/-- `xpathTag.hasIndex` (unmarshal.go). -/
def XpathTag.hasIndex (t : XpathTag) : Bool :=
  hasIndexSuffix t.tag

/-- `xpathTag.hasSuffix` (unmarshal.go): Go `strings.HasSuffix` on the
selector, computed on the character lists. -/
def XpathTag.hasSuffix (t : XpathTag) (s : String) : Bool :=
  s.toList.isSuffixOf t.tag.toList

mutual
/-- The destination type universe: the `reflect.Kind`s the decode engine
dispatches on.  `nodes` is the `[]*html.Node` raw-capture special case
(its Go kind is `Slice`); the modelled universe has no custom
`Unmarshaler` implementors, so `indirect` never yields one. -/
inductive GoTyp : Type where
  | bool
  | int
  | uint
  | float
  | str
  | iface
  | nodes
  | strukt (fields : List FieldT)
  | slice (elem : GoTyp)
  | array (n : Nat) (elem : GoTyp)
  | mapT (key val : GoTyp)
  | ptr (elem : GoTyp)

/-- A struct field: name, `xpath` tag value, `xpath_required` tag value
(empty string when the tag key is absent) and field type. -/
inductive FieldT : Type where
  | mk (name : String) (xtag : String) (rtag : String) (typ : GoTyp)
end

def FieldT.name : FieldT → String
  | .mk n _ _ _ => n

def FieldT.xtag : FieldT → String
  | .mk _ x _ _ => x

def FieldT.rtag : FieldT → String
  | .mk _ _ r _ => r

def FieldT.typ : FieldT → GoTyp
  | .mk _ _ _ t => t

/-- A destination value for each `GoTyp` shape.  Floats carry their exact
rational (the claims never depend on IEEE rounding); all signed integer
widths collapse to `Int`, unsigned to `Nat`. -/
inductive GoVal : Type where
  | bool (b : Bool)
  | int (i : Int)
  | uint (n : Nat)
  | float (q : Rat)
  | str (s : String)
  | iface (o : Option String)
  | nodes (ns : List HNode)
  | strukt (fields : List GoVal)
  | slice (elems : List GoVal)
  | array (elems : List GoVal)
  | mapV
  | ptr (o : Option GoVal)
deriving Repr, Inhabited

mutual
/-- The zero value of a type (`reflect.New(t).Elem()`). -/
def GoTyp.zero : GoTyp → GoVal
  | .bool => .bool false
  | .int => .int 0
  | .uint => .uint 0
  | .float => .float 0
  | .str => .str ""
  | .iface => .iface none
  | .nodes => .nodes []
  | .strukt fs => .strukt (zeroFields fs)
  | .slice _ => .slice []
  | .array n te => .array (List.replicate n te.zero)
  | .mapT _ _ => .mapV
  | .ptr _ => .ptr none

def zeroFields : List FieldT → List GoVal
  | [] => []
  | .mk _ _ _ t :: fs => t.zero :: zeroFields fs
end

/-- Modelled from the spec: `TypeDeref` is referenced by `unmarshalSlice`
but absent from src/; per §4.3 a growable-sequence element is decoded
"into a freshly allocated element" reached through the optional-reference
indirections, i.e. the pointer-free base type. -/
def TypeDeref : GoTyp → GoTyp
  | .ptr e => TypeDeref e
  | t => t

def GoTyp.isPtr : GoTyp → Bool
  | .ptr _ => true
  | _ => false

/-- The raw struct-tag string a field was declared with. -/
def fieldRawTag (name xtag rtag : String) : String :=
  let _ := name
  (if xtag = "" then "" else "xpath:" ++ goQuote xtag) ++
  (if xtag ≠ "" ∧ rtag ≠ "" then " " else "") ++
  (if rtag = "" then "" else "xpath_required:" ++ goQuote rtag)

mutual
/-- The Go type-name string a `reflect.Type` renders as (used by the
diagnostics renderer).  Anonymous struct fields are shown Go-style with
their reconstructed tag. -/
def GoTyp.goString : GoTyp → String
  | .bool => "bool"
  | .int => "int"
  | .uint => "uint"
  | .float => "float64"
  | .str => "string"
  | .iface => "interface {}"
  | .nodes => "[]*html.Node"
  | .strukt fs => "struct \x7b " ++ fieldStrings fs ++ " \x7d"
  | .slice e => "[]" ++ e.goString
  | .array n e => "[" ++ toString n ++ "]" ++ e.goString
  | .mapT k v => "map[" ++ k.goString ++ "]" ++ v.goString
  | .ptr e => "*" ++ e.goString

def fieldStrings : List FieldT → String
  | [] => ""
  | [.mk n x r t] => n ++ " " ++ t.goString ++
      (if x = "" ∧ r = "" then "" else " " ++ goQuote (fieldRawTag n x r))
  | .mk n x r t :: fs => n ++ " " ++ t.goString ++
      (if x = "" ∧ r = "" then "" else " " ++ goQuote (fieldRawTag n x r)) ++
      "; " ++ fieldStrings fs
end

/-! ## The error model -/

/-- Reason constants (unmarshal-error.go). -/
def nonPointer : String := "non-pointer value"

def nodeNotFound : String := "node not found in document"

def nilDestination : String := "destination is nil"

def arrayLengthMismatch : String := "array length does not match document elements found"

def customUnmarshalError : String := "a custom Unmarshaler implementation threw an error"

def typeConversionError : String := "a type conversion error occurred"

def mapIsNotSupportedError : String := "map type is not currently supported"

def multipleNodesDetected : String := "multiple nodes detected for selector"

/-- `CannotUnmarshalError` (unmarshal-error.go).  `Err` is either a nested
frame (`inl`) or a non-frame Go error carried by its message (`inr`);
`FldOrIdx` is a field name (`inl`) or an index (`inr`); `V` records the
`reflect.Value`'s type together with its `CanAddr` flag, `none` for the
invalid `reflect.Value`. -/
inductive CannotUnmarshalError : Type where
  | mk (Err : Option (CannotUnmarshalError ⊕ String)) (Val : String)
      (FldOrIdx : Option (String ⊕ Int)) (V : Option (GoTyp × Bool))
      (Reason : String) (XPath : String)

def CannotUnmarshalError.Err : CannotUnmarshalError → Option (CannotUnmarshalError ⊕ String)
  | .mk e _ _ _ _ _ => e

def CannotUnmarshalError.Val : CannotUnmarshalError → String
  | .mk _ v _ _ _ _ => v

def CannotUnmarshalError.FldOrIdx : CannotUnmarshalError → Option (String ⊕ Int)
  | .mk _ _ f _ _ _ => f

def CannotUnmarshalError.V : CannotUnmarshalError → Option (GoTyp × Bool)
  | .mk _ _ _ v _ _ => v

def CannotUnmarshalError.Reason : CannotUnmarshalError → String
  | .mk _ _ _ _ r _ => r

def CannotUnmarshalError.XPath : CannotUnmarshalError → String
  | .mk _ _ _ _ _ x => x

/-- A Go `error` in the decode flow: a frame or a raw non-frame error. -/
abbrev GoError := CannotUnmarshalError ⊕ String

/-! ## Selector resolution -/

/-- `textVal` (unmarshal.go): trimmed text of the selection. -/
def textVal (doc : Document) : String :=
  goTrimSpace doc.Text

/-- `xpathTag.valFunc` (unmarshal.go): always `textVal` (the cache is
behaviourally the identity). -/
def XpathTag.valFunc (_ : XpathTag) : Document → String :=
  textVal

/-- `findByTag` (unmarshal.go): plain narrowing; empty selector reuses the
parent selection.  Never fails. -/
def findByTag (eng : SelEngine) (doc : Document) (tag : XpathTag) : Except GoError Document :=
  if tag.tag ≠ "" then .ok (doc.Find eng tag.tag) else .ok doc

/-- Modelled from the spec: `Document.FindOne` is referenced by
`findOneByTag` but absent from src/; §6 specifies the engine's one-result
form "additionally fails if more than one match exists" — the failure is
the external engine's own (non-frame) error. -/
def Document.FindOne (eng : SelEngine) (doc : Document) (sel : String) : Except GoError Document :=
  let ns := findNodes eng doc sel
  if ns.length > 1 then
    .error (.inr ("found more than one node for " ++ sel))
  else .ok ⟨ns⟩

/-- `findOneByTag` (unmarshal.go): single-match resolution. -/
def findOneByTag (eng : SelEngine) (doc : Document) (tag : XpathTag) : Except GoError Document :=
  if tag.tag ≠ "" then doc.FindOne eng tag.tag else .ok doc

/-- `findForTypeByTag` (unmarshal.go): index-suffixed selectors (except
`text()`-suffixed ones) resolve through the single-match form; scalar
kinds with neither suffix re-run the plain narrowing and fail with
`multipleNodesDetected` when it matches more than one node.  `.nodes`
(Go `[]*html.Node`) has kind `Slice`, hence takes the non-scalar arm. -/
def findForTypeByTag (eng : SelEngine) (doc : Document) (t : GoTyp) (tag : XpathTag) :
    Except GoError Document :=
  let hasIdx := tag.hasIndex
  let hasTxt := tag.hasSuffix "text()"
  let selE := if hasIdx && !hasTxt then findOneByTag eng doc tag else findByTag eng doc tag
  match selE with
  | .error e => .error e
  | .ok sel =>
    match t with
    | .strukt _ => .ok sel
    | .slice _ => .ok sel
    | .array _ _ => .ok sel
    | .mapT _ _ => .ok sel
    | .iface => .ok sel
    | .ptr _ => .ok sel
    | .nodes => .ok sel
    | _ =>
      if hasIdx || hasTxt then .ok sel
      else
        match findByTag eng doc tag with
        | .error e => .error e
        | .ok s2 =>
          if s2.Length > 1 then
            .error (.inl (.mk none "" none (some (t, true)) multipleNodesDetected tag.tag))
          else .ok sel

/-! ## Literal conversion -/

/-- `unmarshalLiteral` (unmarshal.go): trim, then parse per destination
kind.  Empty trimmed text for a numeric kind keeps the current value; a
numeric parse failure is swallowed unless `required`; a boolean parse
failure is returned unconditionally; strings and empty interfaces store
the untrimmed extracted text. -/
def unmarshalLiteral (s : String) (t : GoTyp) (v : GoVal) (required : Bool) :
    Except String GoVal :=
  let trimmedValue := goTrimSpace s
  match t with
  | .iface => .ok (.iface (some s))
  | .bool =>
    match goParseBool trimmedValue with
    | .error e => .error e
    | .ok b => .ok (.bool b)
  | .int =>
    if trimmedValue = "" then .ok v
    else
      match goParseInt trimmedValue with
      | .error e => if required then .error e else .ok v
      | .ok i => .ok (.int i)
  | .uint =>
    if trimmedValue = "" then .ok v
    else
      match goParseUint trimmedValue with
      | .error e => if required then .error e else .ok v
      | .ok n => .ok (.uint n)
  | .float =>
    if trimmedValue = "" then .ok v
    else
      match goParseFloat trimmedValue with
      | .error e => if required then .error e else .ok v
      | .ok q => .ok (.float q)
  | .str => .ok (.str s)
  | _ => .ok v

/-- The default branch of `unmarshalByType` (unmarshal.go): extract the
value text and convert, wrapping a conversion failure in a
`typeConversionError` frame that carries the literal and the cause. -/
def litCase (doc : Document) (t : GoTyp) (v : GoVal) (tag : XpathTag) : Except GoError GoVal :=
  let str := tag.valFunc doc
  match unmarshalLiteral str t v tag.required with
  | .error e =>
    .error (.inl (.mk (some (.inr e)) str none (some (t, true)) typeConversionError tag.tag))
  | .ok v2 => .ok v2

/-! ## The recursive decode engine -/

theorem sizeOf_TypeDeref_le (t : GoTyp) : sizeOf (TypeDeref t) ≤ sizeOf t := by
  match t with
  | .ptr e =>
    have h := sizeOf_TypeDeref_le e
    simp only [TypeDeref]
    simp only [GoTyp.ptr.sizeOf_spec]
    omega
  | .bool | .int | .uint | .float | .str | .iface | .nodes => simp [TypeDeref]
  | .strukt _ | .slice _ | .array _ _ | .mapT _ _ => simp [TypeDeref]

mutual
/-- `unmarshalByType` (unmarshal.go).  The `indirect` helper (absent from
src/, described in §4.3 step 1) is inlined as the `.ptr` case: allocate a
zero pointee when nil and recurse; the modelled universe contains no
custom `Unmarshaler` implementors, so `indirect` never returns a hook.
Ill-typed type/value pairs (which Go's `reflect` cannot produce) map to a
raw model error. -/
def unmarshalByType (eng : SelEngine) (doc : Document) (t : GoTyp) (v : GoVal)
    (tag : XpathTag) : Except GoError GoVal :=
  match t, v with
  | .ptr te, .ptr o =>
    match unmarshalByType eng doc te (o.getD te.zero) tag with
    | .error e => .error e
    | .ok r => .ok (.ptr (some r))
  | .nodes, .nodes ns => .ok (.nodes (ns ++ doc.Nodes))
  | .strukt fs, .strukt vs =>
    match unmarshalStruct eng doc fs vs with
    | .error e => .error e
    | .ok ws => .ok (.strukt ws)
  | .slice te, .slice _ =>
    match unmarshalSliceVals eng doc te tag 0 doc.Length with
    | .error e => .error e
    | .ok ws => .ok (.slice ws)
  | .array n te, .array vs =>
    if n ≠ doc.Length then
      .error (.inl (.mk none "" none (some (.array n te, true)) arrayLengthMismatch tag.tag))
    else
      match unmarshalArrayVals eng doc n te tag 0 vs with
      | .error e => .error e
      | .ok ws => .ok (.array ws)
  | .mapT k w, .mapV =>
    .error (.inl (.mk none "" none (some (.mapT k w, true)) mapIsNotSupportedError tag.tag))
  | .bool, v => litCase doc .bool v tag
  | .int, v => litCase doc .int v tag
  | .uint, v => litCase doc .uint v tag
  | .float, v => litCase doc .float v tag
  | .str, v => litCase doc .str v tag
  | .iface, v => litCase doc .iface v tag
  | _, _ => .error (.inr "model: destination value does not match its type")
termination_by (sizeOf t, 0)

/-- `unmarshalStruct` (unmarshal.go): iterate the declared fields. -/
def unmarshalStruct (eng : SelEngine) (doc : Document) (fs : List FieldT)
    (vs : List GoVal) : Except GoError (List GoVal) :=
  structFields eng doc fs fs vs
termination_by (sizeOf fs, 1)

/-- The field loop of `unmarshalStruct`: `allF` is the full field list of
the enclosing struct (whose type appears in the error frames); the loop
runs over the remaining fields and their current values. -/
def structFields (eng : SelEngine) (doc : Document) (allF : List FieldT) :
    List FieldT → List GoVal → Except GoError (List GoVal)
  | [], [] => .ok []
  | .mk fname fxtag frtag ftyp :: fs, v :: vs =>
    if fxtag = ignoreTag then
      match structFields eng doc allF fs vs with
      | .error e => .error e
      | .ok ws => .ok (v :: ws)
    else if fxtag = "" then
      -- tag empty and the field's type has no custom Unmarshaler: skip
      match structFields eng doc allF fs vs with
      | .error e => .error e
      | .ok ws => .ok (v :: ws)
    else
      match (if frtag = "" then Except.ok true else goParseBool frtag) with
      | .error e => .error (.inr e)
      | .ok req =>
        let tag : XpathTag := ⟨fxtag, req⟩
        match findForTypeByTag eng doc ftyp tag with
        | .error e => .error e
        | .ok sel =>
          if ¬ tag.required ∧ sel.IsEmpty then
            match structFields eng doc allF fs vs with
            | .error e => .error e
            | .ok ws => .ok (v :: ws)
          else if sel.IsEmpty then
            .error (.inl (.mk none "" none (some (.strukt allF, true)) nodeNotFound tag.tag))
          else
            match unmarshalByType eng sel ftyp v tag with
            | .error e =>
              .error (.inl (.mk (some e) "" (some (.inl fname)) (some (.strukt allF, true))
                typeConversionError tag.tag))
            | .ok w =>
              match structFields eng doc allF fs vs with
              | .error e => .error e
              | .ok ws => .ok (w :: ws)
  | _, _ => .error (.inr "model: field/value mismatch")
termination_by rem vals => (sizeOf rem, 0)

/-- The element loop of `unmarshalSlice` (unmarshal.go): after
`v.SetLen(0)` the loop decodes one freshly allocated element
(`reflect.New(TypeDeref(eleT))`, `indirect` inlined) per node, appending
on success.  At iteration `i ≥ 1` the local slice value has been rebound
by `reflect.Append`, so the frame's value is no longer addressable. -/
def unmarshalSliceVals (eng : SelEngine) (doc : Document) (te : GoTyp) (tag : XpathTag) :
    (i : Nat) → (k : Nat) → Except GoError (List GoVal)
  | _, 0 => .ok []
  | i, k + 1 =>
    match unmarshalByType eng (doc.Eq i) (TypeDeref te) (TypeDeref te).zero tag with
    | .error e =>
      .error (.inl (.mk (some e) "" (some (.inr i)) (some (.slice te, decide (i = 0)))
        typeConversionError tag.tag))
    | .ok r =>
      let w := if te.isPtr then GoVal.ptr (some r) else r
      match unmarshalSliceVals eng doc te tag (i + 1) k with
      | .error e => .error e
      | .ok ws => .ok (w :: ws)
termination_by i k => (sizeOf te, k + 1)
decreasing_by
  · simp_wf
    rcases (sizeOf_TypeDeref_le te).lt_or_eq with h | h
    · exact Prod.Lex.left _ _ h
    · rw [h]
      exact Prod.Lex.right _ (by omega)
  · simp_wf
    exact Prod.Lex.right _ (by omega)

/-- The element loop of `unmarshalArray` (unmarshal.go): decode index `i`
against `doc.Eq i`; the loop bound is the declared length, which equals
the value list's length for a well-typed destination. -/
def unmarshalArrayVals (eng : SelEngine) (doc : Document) (n : Nat) (te : GoTyp)
    (tag : XpathTag) : (i : Nat) → List GoVal → Except GoError (List GoVal)
  | _, [] => .ok []
  | i, v :: vs =>
    match unmarshalByType eng (doc.Eq i) te v tag with
    | .error e =>
      .error (.inl (.mk (some e) "" (some (.inr i)) (some (.array n te, true))
        typeConversionError tag.tag))
    | .ok w =>
      match unmarshalArrayVals eng doc n te tag (i + 1) vs with
      | .error e => .error e
      | .ok ws => .ok (w :: ws)
termination_by i vs => (sizeOf te, vs.length + 1)
end

/-! ## Entry points -/

/-- `UnmarshalSelection` (unmarshal.go): reject non-pointer and nil
destinations up front with unwrapped top-level frames (the passed-in
`reflect.Value` is not addressable), then decode with the zero directive. -/
def UnmarshalSelection (eng : SelEngine) (doc : Document) (t : GoTyp) (v : GoVal) :
    Except GoError GoVal :=
  if ¬ t.isPtr then
    .error (.inl (.mk none "" none (some (t, false)) nonPointer ""))
  else
    match t, v with
    | .ptr te, .ptr none =>
      .error (.inl (.mk none "" none (some (.ptr te, false)) nilDestination ""))
    | t, v => unmarshalByType eng doc t v ⟨"", false⟩

/-- The external html parser (§6): `html.Parse` over a `bytes.Reader`
never fails, so it is a total function from raw bytes to a root node. -/
abbrev HtmlParser := List Nat → HNode

/-- `Unmarshal` (unmarshal.go): parse the bytes into a root node, wrap it
as a one-element selection, decode. -/
def Unmarshal (eng : SelEngine) (parse : HtmlParser) (bs : List Nat) (t : GoTyp)
    (v : GoVal) : Except GoError GoVal :=
  UnmarshalSelection eng ⟨[parse bs]⟩ t v

/-! ## Diagnostics: unwind and render -/

/-- `errChain` (unmarshal-error.go). -/
structure ErrChain where
  chain : List CannotUnmarshalError
  val : String
  tail : Option String

/-- `CannotUnmarshalError.unwind` (unmarshal-error.go): walk `Err` links
while the cause is itself a frame; the first non-frame cause becomes
`tail`; `val` is the deepest non-empty `Val` along the chain. -/
def CannotUnmarshalError.unwind : CannotUnmarshalError → ErrChain
  | .mk (some (.inl e2)) val f v r x =>
    let c := e2.unwind
    ⟨.mk (some (.inl e2)) val f v r x :: c.chain, if c.val ≠ "" then c.val else val, c.tail⟩
  | .mk (some (.inr tl)) val f v r x =>
    ⟨[.mk (some (.inr tl)) val f v r x], val, some tl⟩
  | .mk none val f v r x =>
    ⟨[.mk none val f v r x], val, none⟩

/-- `errChain.tPath` (unmarshal-error.go): root-to-leaf accessor path.
String `FldOrIdx` renders per the value's kind (`["k"]` for maps, `.Name`
for structs, nothing otherwise — an invalid `V` would panic in Go and is
unreachable from the decode flow); integer `FldOrIdx` renders `[i]`. -/
def tPath (chain : List CannotUnmarshalError) : String :=
  chain.foldl (fun nest e =>
    match e.FldOrIdx with
    | none => nest
    | some (.inl name) =>
      match e.V with
      | some (.mapT _ _, _) => nest ++ "[" ++ goQuote name ++ "]"
      | some (.strukt _, _) => nest ++ "." ++ name
      | _ => nest
    | some (.inr i) => nest ++ "[" ++ toString i ++ "]") ""

/-- The all-defaults frame (only used to totalize head/last projections;
`unwind` always produces a non-empty chain). -/
def defaultFrame : CannotUnmarshalError := .mk none "" none none "" ""

/-- `errChain.Error` (unmarshal-error.go): render the chain.  The
`into '...' (type ...): reason` block is emitted only when the root
frame's value is addressable. -/
def ErrChain.Error (c : ErrChain) : String :=
  let last := c.chain.getLastD defaultFrame
  let t := match last.V with
    | some (ty, _) => ty.goString
    | none => "unknown: invalid value"
  let msg := "could not unmarshal "
  let msg := if c.val ≠ "" then msg ++ "value " ++ goQuote c.val ++ " " else msg
  let msg := match (c.chain.headD defaultFrame).V with
    | some (ty, true) =>
      msg ++ "into '" ++ ty.goString ++ tPath c.chain ++ "' (type " ++ t ++ "): " ++ last.Reason
    | _ => msg
  let msg := if last.XPath ≠ "" then msg ++ " tag: '" ++ last.XPath ++ "'" else msg
  match c.tail with
  | some tl => msg ++ ": " ++ tl
  | none => msg

/-- `CannotUnmarshalError.Error` (unmarshal-error.go). -/
def CannotUnmarshalError.ErrorMsg (e : CannotUnmarshalError) : String :=
  e.unwind.Error

/-! ## Claim-side (spec-worded) definitions -/

mutual
/-- Claim-side (§4.1): the raw character-data pieces of a subtree, in
depth-first document order, each preserved verbatim. -/
def collectTexts : HNode → List String
  | .text d => [d]
  | .comment _ => []
  | .elem _ _ cs => collectTextsList cs

def collectTextsList : List HNode → List String
  | [] => []
  | c :: cs => collectTexts c ++ collectTextsList cs
end

/-- Claim-side concatenation of a list of text pieces. -/
def joinTexts : List String → String
  | [] => ""
  | s :: r => s ++ joinTexts r

/-- The scalar kinds: the default arm of `findForTypeByTag`'s kind switch
(`.nodes` has Go kind `Slice` and is not among them). -/
def isScalarKind : GoTyp → Bool
  | .bool => true
  | .int => true
  | .uint => true
  | .float => true
  | .str => true
  | _ => false

/-! ## Helper lemmas -/

theorem joinTexts_append (a b : List String) :
    joinTexts (a ++ b) = joinTexts a ++ joinTexts b := by
  induction a with
  | nil =>
    have : (joinTexts []) = "" := rfl
    simp [this, joinTexts]
  | cons s r ih => simp [joinTexts, ih, String.append_assoc]

mutual
theorem nodeText_eq_join : ∀ n : HNode, nodeText n = joinTexts (collectTexts n)
  | .text d => by simp [nodeText, collectTexts, joinTexts]
  | .comment d => by simp [nodeText, collectTexts, joinTexts]
  | .elem t a cs => by
    simp only [nodeText, collectTexts]
    exact childrenText_eq_join cs

theorem childrenText_eq_join : ∀ l : List HNode, childrenText l = joinTexts (collectTextsList l)
  | [] => rfl
  | c :: cs => by
    simp only [childrenText, collectTextsList, joinTexts_append]
    rw [nodeText_eq_join c, childrenText_eq_join cs]
end

/-- Narrowing a selector that matches nothing yields the empty selection,
whatever the destination kind: every arm of `findForTypeByTag` returns it
and the multiplicity check cannot fire. -/
theorem findForTypeByTag_of_empty (eng : SelEngine) (doc : Document) (t : GoTyp)
    (tag : XpathTag) (hx : tag.tag ≠ "") (h : findNodes eng doc tag.tag = []) :
    findForTypeByTag eng doc t tag = .ok ⟨[]⟩ := by
  have hfind : Document.Find eng doc tag.tag = ⟨[]⟩ := by simp [Document.Find, h]
  have h1 : findByTag eng doc tag = .ok (⟨[]⟩ : Document) := by simp [findByTag, hx, hfind]
  have h2 : findOneByTag eng doc tag = .ok (⟨[]⟩ : Document) := by
    simp [findOneByTag, hx, Document.FindOne, h]
  unfold findForTypeByTag
  cases htag : (tag.hasIndex && !tag.hasSuffix "text()") <;>
    simp only [htag, Bool.false_eq_true, if_false, if_true, ite_true, ite_false, h1, h2] <;>
    cases t <;> simp [h1, hfind, Document.Length]

/-! ## Claims -/

/-- C7: `Document.Text` concatenates the raw character data of exactly the
text-bearing descendant nodes in document order, preserving interior
whitespace verbatim (it equals the join of the depth-first text pieces);
whitespace trimming happens only at the `textVal` extraction boundary.
Concretely, extraction over a whole `<div>1<span>2</span>3</div>` element
reproduces the exact interior whitespace between its text pieces. -/
theorem c7_text_preserves_interior_whitespace :
    (∀ doc : Document, doc.Text = joinTexts (collectTextsList doc.Nodes)) ∧
    (∀ doc : Document, textVal doc = goTrimSpace doc.Text) ∧
    Document.Text ⟨[.elem "div" [] [.text "1", .elem "span" [] [.text "2"], .text "3"]]⟩
      = "123" ∧
    Document.Text ⟨[.elem "div" [] [.text "\n\t1 ", .elem "span" [] [.text " 2\t"], .text " 3\n"]]⟩
      = "\n\t1  2\t 3\n" ∧
    textVal ⟨[.elem "div" [] [.text "\n\t1 ", .elem "span" [] [.text " 2\t"], .text " 3\n"]]⟩
      = "1  2\t 3" := by
  refine ⟨fun doc => childrenText_eq_join doc.Nodes, fun doc => rfl, ?_, ?_, ?_⟩
  · decide
  · decide
  · decide

/-- C5: a non-pointer destination fails with the `nonPointer` reason and a
nil pointer destination with the `nilDestination` reason, both as immediate,
unwrapped, top-level frames whose result does not depend on the input bytes
(html.Parse of a byte slice is total, so the parse that `Unmarshal` runs
before the checks cannot be observed). -/
theorem c5_pointer_preconditions (eng : SelEngine) (parse : HtmlParser) (bs : List Nat)
    (t : GoTyp) (v : GoVal) :
    (t.isPtr = false →
      Unmarshal eng parse bs t v
        = .error (.inl (.mk none "" none (some (t, false)) nonPointer "")) ∧
      ∀ bs2, Unmarshal eng parse bs t v = Unmarshal eng parse bs2 t v) ∧
    (∀ te, t = .ptr te → v = .ptr none →
      Unmarshal eng parse bs t v
        = .error (.inl (.mk none "" none (some (.ptr te, false)) nilDestination "")) ∧
      ∀ bs2, Unmarshal eng parse bs t v = Unmarshal eng parse bs2 t v) := by
  constructor
  · intro h
    constructor
    · simp [Unmarshal, UnmarshalSelection, h]
    · intro bs2
      simp [Unmarshal, UnmarshalSelection, h]
  · intro te ht hv
    subst ht
    subst hv
    constructor
    · simp [Unmarshal, UnmarshalSelection, GoTyp.isPtr]
    · intro bs2
      simp [Unmarshal, UnmarshalSelection, GoTyp.isPtr]

/-- Witness for C5 at concrete inputs: a plain `int` destination and a nil
`*int` destination. -/
theorem c5_pointer_preconditions_witness :
    (Unmarshal (fun _ _ => []) (fun _ => HNode.text "r") [] .int (.int 0)
      = .error (.inl (.mk none "" none (some (.int, false)) nonPointer ""))) ∧
    (Unmarshal (fun _ _ => []) (fun _ => HNode.text "r") [] (.ptr .int) (.ptr none)
      = .error (.inl (.mk none "" none (some (.ptr .int, false)) nilDestination ""))) := by
  constructor
  · exact ((c5_pointer_preconditions (fun _ _ => []) (fun _ => HNode.text "r") []
      .int (.int 0)).1 rfl).1
  · exact ((c5_pointer_preconditions (fun _ _ => []) (fun _ => HNode.text "r") []
      (.ptr .int) (.ptr none)).2 .int rfl rfl).1

/-- C8: a field whose `xpath_required` override is present but not a valid
boolean literal makes the whole record decode fail immediately with the raw
`strconv.ParseBool` error, not wrapped in a frame. -/
theorem c8_invalid_required_override_unwrapped
    (eng : SelEngine) (doc : Document) (allF fs : List FieldT) (vs : List GoVal)
    (fname fxtag frtag : String) (ftyp : GoTyp) (v : GoVal) (e : String)
    (hx1 : fxtag ≠ ignoreTag) (hx2 : fxtag ≠ "") (hr : frtag ≠ "")
    (he : goParseBool frtag = .error e) :
    structFields eng doc allF (.mk fname fxtag frtag ftyp :: fs) (v :: vs)
      = .error (.inr e) := by
  simp [structFields, hx1, hx2, hr, he]

/-- Witness for C8: override `"yes"` is not a Go boolean literal. -/
theorem c8_invalid_required_override_unwrapped_witness :
    structFields (fun _ _ => []) ⟨[.elem "r" [] []]⟩ [] [.mk "A" ".//a" "yes" .int] [.int 0]
      = .error (.inr "strconv.ParseBool: parsing \"yes\": invalid syntax") := by
  exact c8_invalid_required_override_unwrapped (fun _ _ => []) ⟨[.elem "r" [] []]⟩ [] []
    [] "A" ".//a" "yes" .int (.int 0) _ (by decide) (by decide) (by decide) rfl

/-- C1: a field whose selector matches nothing is skipped (left at its
current — for a fresh destination, zero — value, contributing no error)
when not required, and fails with a `nodeNotFound` frame carrying the
selector when required (the default). -/
theorem c1_not_found_required_policy
    (eng : SelEngine) (doc : Document) (allF fs : List FieldT) (vs : List GoVal)
    (fname fxtag frtag : String) (ftyp : GoTyp) (v : GoVal) (req : Bool)
    (hx1 : fxtag ≠ ignoreTag) (hx2 : fxtag ≠ "")
    (hreq : (if frtag = "" then Except.ok true else goParseBool frtag) = Except.ok req)
    (hempty : findNodes eng doc fxtag = []) :
    (req = false →
      structFields eng doc allF (.mk fname fxtag frtag ftyp :: fs) (v :: vs)
        = Except.map (fun ws => v :: ws) (structFields eng doc allF fs vs)) ∧
    (req = true →
      structFields eng doc allF (.mk fname fxtag frtag ftyp :: fs) (v :: vs)
        = .error (.inl (.mk none "" none (some (.strukt allF, true)) nodeNotFound fxtag))) := by
  have hf := findForTypeByTag_of_empty eng doc ftyp ⟨fxtag, req⟩ hx2 hempty
  constructor
  · intro h
    subst h
    simp only [structFields, hx1, hx2, if_false, hreq, hf]
    simp only [Document.IsEmpty, List.length_nil]
    cases hrest : structFields eng doc allF fs vs <;>
      simp [hrest, Except.map, hx1, hx2, hreq, hf]
  · intro h
    subst h
    simp [structFields, hx1, hx2, hreq, hf, Document.IsEmpty]

/-- Witness for C1: a selector matching nothing, once with
`xpath_required:"false"` (field kept at zero, rest of the record decoded)
and once required (nodeNotFound frame carrying the selector). -/
theorem c1_not_found_required_policy_witness :
    (structFields (fun _ _ => []) ⟨[.elem "r" [] []]⟩ [.mk "A" ".//a" "false" .int]
        [.mk "A" ".//a" "false" .int] [.int 0]
      = Except.map (fun ws => GoVal.int 0 :: ws)
          (structFields (fun _ _ => []) ⟨[.elem "r" [] []]⟩ [.mk "A" ".//a" "false" .int] [] [])) ∧
    (structFields (fun _ _ => []) ⟨[.elem "r" [] []]⟩ [.mk "B" ".//b" "" .int]
        [.mk "B" ".//b" "" .int] [.int 0]
      = .error (.inl (.mk none "" none
          (some (.strukt [.mk "B" ".//b" "" .int], true)) nodeNotFound ".//b"))) := by
  constructor
  · exact (c1_not_found_required_policy (fun _ _ => []) ⟨[.elem "r" [] []]⟩
      [.mk "A" ".//a" "false" .int] [] [] "A" ".//a" "false" .int (.int 0) false
      (by decide) (by decide) rfl rfl).1 rfl
  · exact (c1_not_found_required_policy (fun _ _ => []) ⟨[.elem "r" [] []]⟩
      [.mk "B" ".//b" "" .int] [] [] "B" ".//b" "" .int (.int 0) true
      (by decide) (by decide) rfl rfl).2 rfl

/-- Single-value scalar resolution that matches more than one node fails in
`findForTypeByTag` with a `multipleNodesDetected` frame carrying the
selector. -/
theorem findForTypeByTag_of_multi (eng : SelEngine) (doc : Document) (t : GoTyp)
    (tag : XpathTag) (hscalar : isScalarKind t = true) (hx : tag.tag ≠ "")
    (hidx : tag.hasIndex = false) (htxt : tag.hasSuffix "text()" = false)
    (hmulti : (findNodes eng doc tag.tag).length > 1) :
    findForTypeByTag eng doc t tag
      = .error (.inl (.mk none "" none (some (t, true)) multipleNodesDetected tag.tag)) := by
  unfold findForTypeByTag
  simp only [hidx, htxt, Bool.false_and, Bool.false_eq_true, if_false, ite_false]
  cases t <;>
    simp_all [isScalarKind, findByTag, hx, Document.Find, Document.Length]

/-- C3: a scalar record field resolved through single-match semantics (no
index suffix, no `text()` suffix) fails with `multipleNodesDetected`
carrying the selector when the selector matches more than one node; the
frame propagates unwrapped out of the record decode. -/
theorem c3_multiple_nodes_scalar
    (eng : SelEngine) (doc : Document) (allF fs : List FieldT) (vs : List GoVal)
    (fname fxtag frtag : String) (ftyp : GoTyp) (v : GoVal) (req : Bool)
    (hscalar : isScalarKind ftyp = true)
    (hx1 : fxtag ≠ ignoreTag) (hx2 : fxtag ≠ "")
    (hreq : (if frtag = "" then Except.ok true else goParseBool frtag) = Except.ok req)
    (hidx : hasIndexSuffix fxtag = false)
    (htxt : "text()".toList.isSuffixOf fxtag.toList = false)
    (hmulti : (findNodes eng doc fxtag).length > 1) :
    structFields eng doc allF (.mk fname fxtag frtag ftyp :: fs) (v :: vs)
      = .error (.inl (.mk none "" none (some (ftyp, true)) multipleNodesDetected fxtag)) := by
  have hf := findForTypeByTag_of_multi eng doc ftyp ⟨fxtag, req⟩ hscalar hx2 hidx htxt hmulti
  simp [structFields, hx1, hx2, hreq, hf]

/-- Witness for C3: an `int` field whose selector matches two nodes. -/
theorem c3_multiple_nodes_scalar_witness :
    structFields (fun _ _ => [HNode.text "1", HNode.text "2"]) ⟨[.elem "r" [] []]⟩
        [.mk "A" ".//a" "" .int] [.mk "A" ".//a" "" .int] [.int 0]
      = .error (.inl (.mk none "" none (some (.int, true)) multipleNodesDetected ".//a")) := by
  exact c3_multiple_nodes_scalar (fun _ _ => [HNode.text "1", HNode.text "2"])
    ⟨[.elem "r" [] []]⟩ [.mk "A" ".//a" "" .int] [] [] "A" ".//a" "" .int (.int 0) true
    rfl (by decide) (by decide) rfl (by decide) (by decide) (by decide)

/-- C4 counterexample: the claim asserts a boolean parse failure is
silently ignored when the field is not required, but `unmarshalLiteral`
returns the `ParseBool` error unconditionally — a not-required `bool`
destination over text `"abc"` fails instead of keeping its default. -/
theorem c4_counterexample :
    unmarshalByType (fun _ _ => []) ⟨[HNode.text "abc"]⟩ .bool (.bool false) ⟨".//b", false⟩
      = .error (.inl (.mk
          (some (.inr "strconv.ParseBool: parsing \"abc\": invalid syntax")) "abc"
          none (some (.bool, true)) typeConversionError ".//b")) ∧
    unmarshalByType (fun _ _ => []) ⟨[HNode.text "abc"]⟩ .bool (.bool false) ⟨".//b", false⟩
      ≠ .ok (.bool false) := by
  have h : unmarshalByType (fun _ _ => []) ⟨[HNode.text "abc"]⟩ .bool (.bool false)
      ⟨".//b", false⟩
      = .error (.inl (.mk
          (some (.inr "strconv.ParseBool: parsing \"abc\": invalid syntax")) "abc"
          none (some (.bool, true)) typeConversionError ".//b")) := by
    simp [unmarshalByType, litCase, XpathTag.valFunc, textVal, Document.Text, childrenText,
      nodeText, unmarshalLiteral, goTrimSpace, goIsSpace, goParseBool, goQuote, goQuoteChar]
  exact ⟨h, by simp [h]⟩

/-- C4 (amended): empty trimmed text for a numeric kind (int, uint, float)
keeps the default and is not a failure; a numeric parse failure keeps the
default when the field is not required and, when required, surfaces as a
`typeConversionError` frame carrying the failing literal and the parse
error as cause; a boolean parse failure fails that way regardless of the
required flag. -/
theorem c4_literal_conversion_policy :
    (∀ (s : String) (v : GoVal) (req : Bool), goTrimSpace s = "" →
      unmarshalLiteral s .int v req = .ok v ∧
      unmarshalLiteral s .uint v req = .ok v ∧
      unmarshalLiteral s .float v req = .ok v) ∧
    (∀ (s : String) (v : GoVal) (e : String),
      (goParseInt (goTrimSpace s) = .error e → unmarshalLiteral s .int v false = .ok v) ∧
      (goParseUint (goTrimSpace s) = .error e → unmarshalLiteral s .uint v false = .ok v) ∧
      (goParseFloat (goTrimSpace s) = .error e → unmarshalLiteral s .float v false = .ok v)) ∧
    (∀ (eng : SelEngine) (doc : Document) (v : GoVal) (tag : XpathTag) (e : String),
      tag.required = true → goTrimSpace (textVal doc) ≠ "" →
      goParseInt (goTrimSpace (textVal doc)) = .error e →
      unmarshalByType eng doc .int v tag
        = .error (.inl (.mk (some (.inr e)) (textVal doc) none (some (.int, true))
            typeConversionError tag.tag))) ∧
    (∀ (eng : SelEngine) (doc : Document) (v : GoVal) (tag : XpathTag) (e : String),
      tag.required = true → goTrimSpace (textVal doc) ≠ "" →
      goParseUint (goTrimSpace (textVal doc)) = .error e →
      unmarshalByType eng doc .uint v tag
        = .error (.inl (.mk (some (.inr e)) (textVal doc) none (some (.uint, true))
            typeConversionError tag.tag))) ∧
    (∀ (eng : SelEngine) (doc : Document) (v : GoVal) (tag : XpathTag) (e : String),
      tag.required = true → goTrimSpace (textVal doc) ≠ "" →
      goParseFloat (goTrimSpace (textVal doc)) = .error e →
      unmarshalByType eng doc .float v tag
        = .error (.inl (.mk (some (.inr e)) (textVal doc) none (some (.float, true))
            typeConversionError tag.tag))) ∧
    (∀ (eng : SelEngine) (doc : Document) (v : GoVal) (tag : XpathTag) (e : String),
      goParseBool (goTrimSpace (textVal doc)) = .error e →
      unmarshalByType eng doc .bool v tag
        = .error (.inl (.mk (some (.inr e)) (textVal doc) none (some (.bool, true))
            typeConversionError tag.tag))) := by
  refine ⟨fun s v req h => ?_, fun s v e => ?_, fun eng doc v tag e hreq hne hp => ?_,
    fun eng doc v tag e hreq hne hp => ?_, fun eng doc v tag e hreq hne hp => ?_,
    fun eng doc v tag e hp => ?_⟩
  · refine ⟨?_, ?_, ?_⟩ <;> simp [unmarshalLiteral, h]
  · refine ⟨fun hp => ?_, fun hp => ?_, fun hp => ?_⟩ <;>
      simp [unmarshalLiteral, hp] <;> intro h0 <;> simp [h0] at hp <;>
        simp [goParseInt, goParseUint, goParseFloat] at hp
  · simp [unmarshalByType, litCase, XpathTag.valFunc, unmarshalLiteral, hne, hp, hreq]
  · simp [unmarshalByType, litCase, XpathTag.valFunc, unmarshalLiteral, hne, hp, hreq]
  · simp [unmarshalByType, litCase, XpathTag.valFunc, unmarshalLiteral, hne, hp, hreq]
  · simp [unmarshalByType, litCase, XpathTag.valFunc, unmarshalLiteral, hp]

/-- Witness for C4 (amended): empty text into `int` keeps the default;
`"zz"` into a not-required `int` keeps the default; `"zz"` into required
`int`, `uint` and `float` destinations produces the full conversion
frames. -/
theorem c4_literal_conversion_policy_witness :
    unmarshalLiteral "  " .int (.int 7) true = .ok (.int 7) ∧
    unmarshalLiteral "zz" .int (.int 7) false = .ok (.int 7) ∧
    unmarshalByType (fun _ _ => []) ⟨[HNode.text "zz"]⟩ .int (.int 7) ⟨".//i", true⟩
      = .error (.inl (.mk
          (some (.inr "strconv.ParseInt: parsing \"zz\": invalid syntax")) "zz"
          none (some (.int, true)) typeConversionError ".//i")) ∧
    unmarshalByType (fun _ _ => []) ⟨[HNode.text "zz"]⟩ .uint (.uint 7) ⟨".//i", true⟩
      = .error (.inl (.mk
          (some (.inr "strconv.ParseUint: parsing \"zz\": invalid syntax")) "zz"
          none (some (.uint, true)) typeConversionError ".//i")) ∧
    unmarshalByType (fun _ _ => []) ⟨[HNode.text "zz"]⟩ .float (.float 7) ⟨".//i", true⟩
      = .error (.inl (.mk
          (some (.inr "strconv.ParseFloat: parsing \"zz\": invalid syntax")) "zz"
          none (some (.float, true)) typeConversionError ".//i")) := by
  refine ⟨((c4_literal_conversion_policy.1 "  " (.int 7) true (by decide)).1), ?_, ?_, ?_, ?_⟩
  · exact (c4_literal_conversion_policy.2.1 "zz" (.int 7)
      "strconv.ParseInt: parsing \"zz\": invalid syntax").1 rfl
  · exact c4_literal_conversion_policy.2.2.1 (fun _ _ => []) ⟨[HNode.text "zz"]⟩ (.int 7)
      ⟨".//i", true⟩ "strconv.ParseInt: parsing \"zz\": invalid syntax" rfl
      (by decide) rfl
  · exact c4_literal_conversion_policy.2.2.2.1 (fun _ _ => []) ⟨[HNode.text "zz"]⟩ (.uint 7)
      ⟨".//i", true⟩ "strconv.ParseUint: parsing \"zz\": invalid syntax" rfl
      (by decide) rfl
  · exact c4_literal_conversion_policy.2.2.2.2.1 (fun _ _ => []) ⟨[HNode.text "zz"]⟩
      (.float 7) ⟨".//i", true⟩ "strconv.ParseFloat: parsing \"zz\": invalid syntax" rfl
      (by decide) rfl

/-- On success the array element loop decodes index `i + j` against
`doc.Eq (i + j)`, one result per input value, in order. -/
theorem arrayVals_ok (eng : SelEngine) (doc : Document) (n : Nat) (te : GoTyp)
    (tag : XpathTag) :
    ∀ (vs : List GoVal) (i : Nat) (ws : List GoVal),
      unmarshalArrayVals eng doc n te tag i vs = .ok ws →
      ws.length = vs.length ∧
      ∀ j vj wj, vs.get? j = some vj → ws.get? j = some wj →
        unmarshalByType eng (doc.Eq ((i + j : Nat) : Int)) te vj tag = .ok wj := by
  intro vs
  induction vs with
  | nil =>
    intro i ws h
    simp only [unmarshalArrayVals] at h
    cases h
    exact ⟨rfl, by intro j vj wj h1 _; simp at h1⟩
  | cons v rest ih =>
    intro i ws h
    simp only [unmarshalArrayVals] at h
    cases hd : unmarshalByType eng (doc.Eq (i : Int)) te v tag with
    | error e => rw [hd] at h; cases h
    | ok w =>
      rw [hd] at h
      cases hrest : unmarshalArrayVals eng doc n te tag (i + 1) rest with
      | error e => rw [hrest] at h; cases h
      | ok ws2 =>
        rw [hrest] at h
        cases h
        obtain ⟨hlen, helem⟩ := ih (i + 1) ws2 hrest
        refine ⟨by simp [hlen], ?_⟩
        intro j vj wj h1 h2
        cases j with
        | zero =>
          simp only [List.get?_cons_zero, Option.some.injEq] at h1 h2
          subst h1
          subst h2
          simpa using hd
        | succ j2 =>
          simp only [List.get?_cons_succ] at h1 h2
          have hrec := helem j2 vj wj h1 h2
          have harith : i + 1 + j2 = i + (j2 + 1) := by omega
          rw [harith] at hrec
          exact hrec

/-- Every failure of the array element loop is a `typeConversionError`
frame wrapping exactly the first failing element's error as its cause,
with `FldOrIdx` equal to that element's index (every earlier element
decoded successfully). -/
theorem arrayVals_err (eng : SelEngine) (doc : Document) (n : Nat) (te : GoTyp)
    (tag : XpathTag) :
    ∀ (vs : List GoVal) (i : Nat) (e : GoError),
      unmarshalArrayVals eng doc n te tag i vs = .error e →
      ∃ j vj e0, j < vs.length ∧ vs.get? j = some vj ∧
        unmarshalByType eng (doc.Eq ((i + j : Nat) : Int)) te vj tag = .error e0 ∧
        e = .inl (.mk (some e0) "" (some (.inr ((i + j : Nat) : Int)))
          (some (.array n te, true)) typeConversionError tag.tag) ∧
        ∀ j2 vj2, j2 < j → vs.get? j2 = some vj2 →
          ∃ w, unmarshalByType eng (doc.Eq ((i + j2 : Nat) : Int)) te vj2 tag = .ok w := by
  intro vs
  induction vs with
  | nil =>
    intro i e h
    simp only [unmarshalArrayVals] at h
    cases h
  | cons v rest ih =>
    intro i e h
    simp only [unmarshalArrayVals] at h
    cases hd : unmarshalByType eng (doc.Eq (i : Int)) te v tag with
    | error e0 =>
      rw [hd] at h
      cases h
      refine ⟨0, v, e0, by simp, rfl, by simpa using hd, by simp, ?_⟩
      intro j2 vj2 hj2 _
      exact absurd hj2 (by omega)
    | ok w =>
      rw [hd] at h
      cases hrest : unmarshalArrayVals eng doc n te tag (i + 1) rest with
      | error e2 =>
        rw [hrest] at h
        cases h
        obtain ⟨j, vj, e0, hj, hget, hfail, heq, hearlier⟩ := ih (i + 1) _ hrest
        have harith : i + 1 + j = i + (j + 1) := by omega
        rw [harith] at hfail heq
        refine ⟨j + 1, vj, e0, by simp; omega, by simpa using hget, hfail, heq, ?_⟩
        intro j2 vj2 hj2 hget2
        cases j2 with
        | zero =>
          simp only [List.get?_cons_zero, Option.some.injEq] at hget2
          subst hget2
          exact ⟨w, by simpa using hd⟩
        | succ j3 =>
          simp only [List.get?_cons_succ] at hget2
          have hmem := hearlier j3 vj2 (by omega) hget2
          have harith2 : i + 1 + j3 = i + (j3 + 1) := by omega
          rw [harith2] at hmem
          exact hmem
      | ok ws2 => rw [hrest] at h; cases h

/-- C2: a fixed-length array destination fails with `arrayLengthMismatch`
iff the selection length differs from the declared length (the failure
frame does not depend on, nor touch, the element values); when the lengths
agree, element `i` is decoded from `doc.Eq i` (the i-th matched node), and
an element failure is wrapped with `fieldOrIndex = i` and reason
`typeConversionError`. -/
theorem c2_array_semantics (eng : SelEngine) (doc : Document) (n : Nat) (te : GoTyp)
    (tag : XpathTag) (vs : List GoVal) (hv : vs.length = n) :
    (n ≠ doc.Length →
      unmarshalByType eng doc (.array n te) (.array vs) tag
        = .error (.inl (.mk none "" none (some (.array n te, true))
            arrayLengthMismatch tag.tag))) ∧
    (∀ fr, unmarshalByType eng doc (.array n te) (.array vs) tag = .error (.inl fr) →
      (fr.Reason = arrayLengthMismatch ↔ n ≠ doc.Length)) ∧
    (∀ fr, n = doc.Length →
      unmarshalByType eng doc (.array n te) (.array vs) tag = .error (.inl fr) →
      ∃ j vj e0, j < n ∧ vs.get? j = some vj ∧
        unmarshalByType eng (doc.Eq (j : Int)) te vj tag = .error e0 ∧
        fr = .mk (some e0) "" (some (.inr (j : Int))) (some (.array n te, true))
          typeConversionError tag.tag ∧
        ∀ j2 vj2, j2 < j → vs.get? j2 = some vj2 →
          ∃ w, unmarshalByType eng (doc.Eq (j2 : Int)) te vj2 tag = .ok w) ∧
    (∀ w, unmarshalByType eng doc (.array n te) (.array vs) tag = .ok w →
      n = doc.Length ∧ ∃ ws, w = .array ws ∧ ws.length = n ∧
        ∀ j vj wj, vs.get? j = some vj → ws.get? j = some wj →
          unmarshalByType eng (doc.Eq (j : Int)) te vj tag = .ok wj) := by
  have hmain : unmarshalByType eng doc (.array n te) (.array vs) tag
      = if n ≠ doc.Length then
          .error (.inl (.mk none "" none (some (.array n te, true))
            arrayLengthMismatch tag.tag))
        else
          match unmarshalArrayVals eng doc n te tag 0 vs with
          | .error e => .error e
          | .ok ws => .ok (.array ws) := by
    simp [unmarshalByType]
  refine ⟨fun h => by rw [hmain, if_pos h], fun fr hfr => ?_, fun fr heq hfr => ?_,
    fun w hw => ?_⟩
  · by_cases h : n = doc.Length
    · rw [hmain, if_neg (by simpa using h)] at hfr
      cases hrest : unmarshalArrayVals eng doc n te tag 0 vs with
      | error e =>
        rw [hrest] at hfr
        obtain ⟨j, vj, e0, hj, hget, hfail, heq, hearlier⟩ :=
          arrayVals_err eng doc n te tag vs 0 e hrest
        subst heq
        cases hfr
        constructor
        · intro hbad
          simp only [CannotUnmarshalError.Reason] at hbad
          exact absurd hbad (by decide)
        · intro hbad
          exact absurd h hbad
      | ok ws => rw [hrest] at hfr; cases hfr
    · rw [hmain, if_pos h] at hfr
      cases hfr
      constructor
      · intro _
        exact h
      · intro _
        rfl
  · rw [hmain, if_neg (by simpa using heq)] at hfr
    cases hrest : unmarshalArrayVals eng doc n te tag 0 vs with
    | error e =>
      rw [hrest] at hfr
      obtain ⟨j, vj, e0, hj, hget, hfail, hfr2, hearlier⟩ :=
        arrayVals_err eng doc n te tag vs 0 e hrest
      subst hfr2
      cases hfr
      refine ⟨j, vj, e0, by omega, hget, by simpa using hfail, by simp, ?_⟩
      intro j2 vj2 hj2 hget2
      simpa using hearlier j2 vj2 hj2 hget2
    | ok ws => rw [hrest] at hfr; cases hfr
  · by_cases h : n = doc.Length
    · rw [hmain, if_neg (by simpa using h)] at hw
      cases hrest : unmarshalArrayVals eng doc n te tag 0 vs with
      | error e => rw [hrest] at hw; cases hw
      | ok ws =>
        rw [hrest] at hw
        cases hw
        obtain ⟨hlen, helem⟩ := arrayVals_ok eng doc n te tag vs 0 ws hrest
        refine ⟨h, ws, rfl, by omega, ?_⟩
        intro j vj wj h1 h2
        simpa using helem j vj wj h1 h2
    · rw [hmain, if_pos h] at hw
      cases hw

/-- Witness for C2: a 2-element array against a 1-node selection fails
with the `arrayLengthMismatch` frame; a 1-element `int` array against a
1-node selection with unparseable text fails with a frame carrying the
failing element's index and its conversion error as cause. -/
theorem c2_array_semantics_witness :
    (unmarshalByType (fun _ _ => []) ⟨[HNode.text "7"]⟩ (.array 2 .int)
        (.array [.int 0, .int 0]) ⟨".//a", true⟩
      = .error (.inl (.mk none "" none (some (.array 2 .int, true))
          arrayLengthMismatch ".//a"))) ∧
    (∃ j vj e0, j < 1 ∧ [GoVal.int 0].get? j = some vj ∧
      unmarshalByType (fun _ _ => []) (Document.Eq ⟨[HNode.text "x"]⟩ (j : Int)) .int vj
        ⟨".//a", true⟩ = .error e0 ∧
      (CannotUnmarshalError.mk
        (some (.inl (.mk (some (.inr "strconv.ParseInt: parsing \"x\": invalid syntax")) "x"
          none (some (.int, true)) typeConversionError ".//a")))
        "" (some (.inr (0 : Int))) (some (.array 1 .int, true)) typeConversionError ".//a")
        = .mk (some e0) "" (some (.inr (j : Int))) (some (.array 1 .int, true))
          typeConversionError ".//a" ∧
      ∀ j2 vj2, j2 < j → [GoVal.int 0].get? j2 = some vj2 →
        ∃ w, unmarshalByType (fun _ _ => []) (Document.Eq ⟨[HNode.text "x"]⟩ (j2 : Int)) .int
          vj2 ⟨".//a", true⟩ = .ok w) := by
  constructor
  · exact (c2_array_semantics (fun _ _ => []) ⟨[HNode.text "7"]⟩ 2 .int ⟨".//a", true⟩
      [.int 0, .int 0] rfl).1 (by decide)
  · exact (c2_array_semantics (fun _ _ => []) ⟨[HNode.text "x"]⟩ 1 .int ⟨".//a", true⟩
      [.int 0] rfl).2.2.1
      (.mk (some (.inl (.mk (some (.inr "strconv.ParseInt: parsing \"x\": invalid syntax")) "x"
          none (some (.int, true)) typeConversionError ".//a")))
        "" (some (.inr (0 : Int))) (some (.array 1 .int, true)) typeConversionError ".//a")
      rfl
      (by simp [unmarshalByType, unmarshalArrayVals, litCase, XpathTag.valFunc, textVal,
        Document.Text, childrenText, nodeText, unmarshalLiteral, goTrimSpace, goIsSpace,
        goParseInt, goQuote, goQuoteChar, digitsToNat, Document.Eq, Document.Slice,
        Document.Length, maxIntGo])

/-- On success the slice element loop produces, for position `j`, the
decode of a freshly zeroed base element against `doc.Eq (i + j)`, wrapped
back into a pointer when the element type is a pointer. -/
theorem sliceVals_ok (eng : SelEngine) (doc : Document) (te : GoTyp) (tag : XpathTag) :
    ∀ (k i : Nat) (ws : List GoVal),
      unmarshalSliceVals eng doc te tag i k = .ok ws →
      ws.length = k ∧
      ∀ j wj, ws.get? j = some wj →
        ∃ r, unmarshalByType eng (doc.Eq ((i + j : Nat) : Int)) (TypeDeref te)
            (TypeDeref te).zero tag = .ok r ∧
          wj = (if te.isPtr then GoVal.ptr (some r) else r) := by
  intro k
  induction k with
  | zero =>
    intro i ws h
    simp only [unmarshalSliceVals] at h
    cases h
    exact ⟨rfl, by intro j wj h1; simp at h1⟩
  | succ k2 ih =>
    intro i ws h
    simp only [unmarshalSliceVals] at h
    cases hd : unmarshalByType eng (doc.Eq (i : Int)) (TypeDeref te) (TypeDeref te).zero tag with
    | error e => rw [hd] at h; cases h
    | ok r =>
      rw [hd] at h
      cases hrest : unmarshalSliceVals eng doc te tag (i + 1) k2 with
      | error e => rw [hrest] at h; cases h
      | ok ws2 =>
        rw [hrest] at h
        cases h
        obtain ⟨hlen, helem⟩ := ih (i + 1) ws2 hrest
        refine ⟨by simp [hlen], ?_⟩
        intro j wj h1
        cases j with
        | zero =>
          simp only [List.get?_cons_zero, Option.some.injEq] at h1
          subst h1
          exact ⟨r, by simpa using hd, rfl⟩
        | succ j2 =>
          simp only [List.get?_cons_succ] at h1
          obtain ⟨r2, hr2, hw2⟩ := helem j2 wj h1
          have harith : i + 1 + j2 = i + (j2 + 1) := by omega
          rw [harith] at hr2
          exact ⟨r2, hr2, hw2⟩

/-- C10: decoding into a growable slice discards whatever elements the
destination held (the `v.SetLen(0)` truncation makes the result independent
of the prior contents), and a successful decode yields exactly one freshly
decoded element per matched node, in document order. -/
theorem c10_slice_truncation
    (eng : SelEngine) (doc : Document) (te : GoTyp) (tag : XpathTag) (prior : List GoVal) :
    (∀ prior2, unmarshalByType eng doc (.slice te) (.slice prior) tag
        = unmarshalByType eng doc (.slice te) (.slice prior2) tag) ∧
    (∀ w, unmarshalByType eng doc (.slice te) (.slice prior) tag = .ok w →
      ∃ ws, w = .slice ws ∧ ws.length = doc.Length ∧
        ∀ j wj, ws.get? j = some wj →
          ∃ r, unmarshalByType eng (doc.Eq (j : Int)) (TypeDeref te)
              (TypeDeref te).zero tag = .ok r ∧
            wj = (if te.isPtr then GoVal.ptr (some r) else r)) := by
  constructor
  · intro prior2
    simp only [unmarshalByType]
  · intro w hw
    simp only [unmarshalByType] at hw
    cases hrest : unmarshalSliceVals eng doc te tag 0 doc.Length with
    | error e => rw [hrest] at hw; cases hw
    | ok ws =>
      rw [hrest] at hw
      cases hw
      obtain ⟨hlen, helem⟩ := sliceVals_ok eng doc te tag doc.Length 0 ws hrest
      refine ⟨ws, rfl, hlen, ?_⟩
      intro j wj h1
      simpa using helem j wj h1

/-- Witness for C10: two different prior slice contents give the same
decode result, and the successful result holds one element per node. -/
theorem c10_slice_truncation_witness :
    unmarshalByType (fun _ _ => []) ⟨[HNode.text "1", HNode.text "2"]⟩ (.slice .int)
        (.slice [.int 9, .int 8, .int 7]) ⟨".//a", true⟩
      = unmarshalByType (fun _ _ => []) ⟨[HNode.text "1", HNode.text "2"]⟩ (.slice .int)
        (.slice []) ⟨".//a", true⟩ := by
  exact (c10_slice_truncation (fun _ _ => []) ⟨[HNode.text "1", HNode.text "2"]⟩ .int
    ⟨".//a", true⟩ [.int 9, .int 8, .int 7]).1 []

/-- C9: for a scalar field, an index-suffixed selector (`\[\d+\]$`, not
`text()`-suffixed) is resolved through the external single-match form
(`findOneByTag`), whose only failure is the engine's raw error — never a
`multipleNodesDetected` frame; a `text()`-suffixed selector resolves by
plain narrowing with no multiplicity check at all, keeping every matched
text node, whose contents the extraction concatenates. -/
theorem c9_index_and_text_suffix_bypass
    (eng : SelEngine) (doc : Document) (t : GoTyp) (tag : XpathTag)
    (hscalar : isScalarKind t = true) (hx : tag.tag ≠ "") :
    (tag.hasIndex = true → tag.hasSuffix "text()" = false →
      findForTypeByTag eng doc t tag = findOneByTag eng doc tag ∧
      ∀ fr, findForTypeByTag eng doc t tag ≠ .error (.inl fr)) ∧
    (tag.hasSuffix "text()" = true →
      findForTypeByTag eng doc t tag = .ok (doc.Find eng tag.tag) ∧
      textVal (doc.Find eng tag.tag)
        = goTrimSpace (joinTexts (collectTextsList (findNodes eng doc tag.tag)))) := by
  constructor
  · intro hidx htxt
    have hone : findOneByTag eng doc tag
        = (if (findNodes eng doc tag.tag).length > 1 then
            .error (.inr ("found more than one node for " ++ tag.tag))
          else .ok ⟨findNodes eng doc tag.tag⟩) := by
      simp [findOneByTag, hx, Document.FindOne]
    constructor
    · unfold findForTypeByTag
      simp only [hidx, htxt, Bool.not_false, Bool.and_self, if_true, ite_true, Bool.true_or,
        Bool.or_false]
      cases hres : findOneByTag eng doc tag with
      | error e => simp [hres]
      | ok sel =>
        simp only [hres]
        cases t <;> simp_all [isScalarKind]
    · intro fr
      unfold findForTypeByTag
      simp only [hidx, htxt, Bool.not_false, Bool.and_self, if_true, ite_true]
      rw [hone]
      by_cases hlen : 1 < (findNodes eng doc tag.tag).length
      · rw [if_pos hlen]
        simp
      · rw [if_neg hlen]
        cases t <;> simp_all [isScalarKind]
  · intro htxt
    have h1 : findByTag eng doc tag = .ok (doc.Find eng tag.tag) := by
      simp [findByTag, hx]
    constructor
    · unfold findForTypeByTag
      simp only [htxt, Bool.not_true, Bool.and_false, Bool.false_eq_true, if_false,
        ite_false, h1, Bool.or_true]
      cases t <;> simp_all [isScalarKind]
    · show goTrimSpace (Document.Text (doc.Find eng tag.tag)) = _
      have : Document.Text (doc.Find eng tag.tag)
          = joinTexts (collectTextsList (findNodes eng doc tag.tag)) := by
        show childrenText (findNodes eng doc tag.tag) = _
        exact childrenText_eq_join _
      rw [this]

/-- Witness for C9: `".//a[2]"` (index suffix) resolves through
`findOneByTag` and, with two matching nodes, fails with the engine's raw
error rather than a `multipleNodesDetected` frame; `".//a/text()"`
(text suffix) keeps both matched text nodes and concatenates them. -/
theorem c9_index_and_text_suffix_bypass_witness :
    (findForTypeByTag (fun _ _ => [HNode.text "1", HNode.text "2"]) ⟨[.elem "r" [] []]⟩
        .int ⟨".//a[2]", true⟩
      = findOneByTag (fun _ _ => [HNode.text "1", HNode.text "2"]) ⟨[.elem "r" [] []]⟩
        ⟨".//a[2]", true⟩) ∧
    (findForTypeByTag (fun _ _ => [HNode.text "1", HNode.text "2"]) ⟨[.elem "r" [] []]⟩
        .str ⟨".//a/text()", true⟩
      = .ok (Document.Find (fun _ _ => [HNode.text "1", HNode.text "2"]) ⟨[.elem "r" [] []]⟩
          ".//a/text()") ∧
      textVal (Document.Find (fun _ _ => [HNode.text "1", HNode.text "2"]) ⟨[.elem "r" [] []]⟩
          ".//a/text()")
        = goTrimSpace (joinTexts (collectTextsList
            (findNodes (fun _ _ => [HNode.text "1", HNode.text "2"]) ⟨[.elem "r" [] []]⟩
              ".//a/text()")))) := by
  constructor
  · exact ((c9_index_and_text_suffix_bypass (fun _ _ => [HNode.text "1", HNode.text "2"])
      ⟨[.elem "r" [] []]⟩ .int ⟨".//a[2]", true⟩ rfl (by decide)).1 (by decide) (by decide)).1
  · exact (c9_index_and_text_suffix_bypass (fun _ _ => [HNode.text "1", HNode.text "2"])
      ⟨[.elem "r" [] []]⟩ .str ⟨".//a/text()", true⟩ rfl (by decide)).2 (by decide)

/-! ## C6: claim-side chain functions and rendering -/

/-- Claim-side: the frame chain, outermost first, following cause links
while the cause is itself a frame. -/
def chainOf : CannotUnmarshalError → List CannotUnmarshalError
  | .mk (some (.inl e2)) val f v r x => .mk (some (.inl e2)) val f v r x :: chainOf e2
  | .mk (some (.inr tl)) val f v r x => [.mk (some (.inr tl)) val f v r x]
  | .mk none val f v r x => [.mk none val f v r x]

/-- Claim-side: the first non-frame cause, if any. -/
def tailOf : CannotUnmarshalError → Option String
  | .mk (some (.inl e2)) _ _ _ _ _ => tailOf e2
  | .mk (some (.inr tl)) _ _ _ _ _ => some tl
  | .mk none _ _ _ _ _ => none

/-- Claim-side: the deepest non-empty literal value along the chain. -/
def deepVal : CannotUnmarshalError → String
  | .mk (some (.inl e2)) val _ _ _ _ => if deepVal e2 ≠ "" then deepVal e2 else val
  | .mk (some (.inr _)) val _ _ _ _ => val
  | .mk none val _ _ _ _ => val

/-- `unwind` computes exactly the claim-side chain, deepest literal and
tail. -/
theorem unwind_eq : ∀ e : CannotUnmarshalError,
    e.unwind = ⟨chainOf e, deepVal e, tailOf e⟩
  | .mk (some (.inl e2)) val f v r x => by
    simp only [CannotUnmarshalError.unwind, chainOf, deepVal, tailOf, unwind_eq e2]
  | .mk (some (.inr tl)) val f v r x => rfl
  | .mk none val f v r x => rfl

/-- Claim-side path: root-to-leaf, `.Name` for record-field hops, `[i]`
for index hops. -/
def claimPath : List CannotUnmarshalError → String
  | [] => ""
  | e :: rest =>
    (match e.FldOrIdx with
     | some (.inl name) => "." ++ name
     | some (.inr i) => "[" ++ toString i ++ "]"
     | none => "") ++ claimPath rest

/-- On chains whose name-indexed hops all sit on record values (every
chain the decoder produces is of this shape), `tPath` renders the
claim-side path. -/
theorem tPath_eq_claimPath (chain : List CannotUnmarshalError)
    (h : ∀ fr ∈ chain, ∀ name, fr.FldOrIdx = some (.inl name) →
      ∃ fs b, fr.V = some (.strukt fs, b)) :
    tPath chain = claimPath chain := by
  have main : ∀ (c : List CannotUnmarshalError),
      (∀ fr ∈ c, ∀ name, fr.FldOrIdx = some (.inl name) →
        ∃ fs b, fr.V = some (.strukt fs, b)) →
      ∀ acc : String,
        List.foldl (fun nest e =>
          match e.FldOrIdx with
          | none => nest
          | some (.inl name) =>
            match e.V with
            | some (.mapT _ _, _) => nest ++ "[" ++ goQuote name ++ "]"
            | some (.strukt _, _) => nest ++ "." ++ name
            | _ => nest
          | some (.inr i) => nest ++ "[" ++ toString i ++ "]") acc c
        = acc ++ claimPath c := by
    intro c
    induction c with
    | nil =>
      intro _ acc
      simp [claimPath]
    | cons e rest ih =>
      intro hc acc
      have hrest : ∀ fr ∈ rest, ∀ name, fr.FldOrIdx = some (.inl name) →
          ∃ fs b, fr.V = some (.strukt fs, b) := by
        intro fr hm
        exact hc fr (List.mem_cons_of_mem e hm)
      simp only [List.foldl_cons, claimPath, ih hrest]
      cases hf : e.FldOrIdx with
      | none => simp [hf, String.append_assoc]
      | some fi =>
        cases fi with
        | inl name =>
          obtain ⟨fs, b, hv⟩ := hc e (List.mem_cons_self e rest) name hf
          simp [hf, hv, String.append_assoc]
        | inr i => simp [hf, String.append_assoc]
  have := main chain h ""
  unfold tPath
  rw [this]
  have : ∀ s : String, "" ++ s = s := by
    intro s
    apply String.ext
    simp
  rw [this]

theorem append_empty_str (s : String) : s ++ "" = s := by
  apply String.ext
  simp

theorem empty_append_str (s : String) : "" ++ s = s := by
  apply String.ext
  simp

/-- Claim-side message template: `could not unmarshal `, then
`value "<literal>" ` when a literal was captured, then — when the root
frame's value is addressable — `into '<TypeName><path>' (type <leafType>):
<reason>`, then ` tag: '<selector>'` when the leaf carries a selector,
then `: <tail message>` when a tail exists. -/
def claimMsg (e : CannotUnmarshalError) : String :=
  let chain := chainOf e
  let leaf := chain.getLastD defaultFrame
  let leafT := match leaf.V with
    | some (ty, _) => ty.goString
    | none => "unknown: invalid value"
  let valPart := if deepVal e ≠ "" then "value " ++ goQuote (deepVal e) ++ " " else ""
  let intoPart := match (chain.headD defaultFrame).V with
    | some (ty, true) =>
      "into '" ++ ty.goString ++ claimPath chain ++ "' (type " ++ leafT ++ "): " ++ leaf.Reason
    | _ => ""
  let tagPart := if leaf.XPath ≠ "" then " tag: '" ++ leaf.XPath ++ "'" else ""
  let tailPart := match tailOf e with
    | some tl => ": " ++ tl
    | none => ""
  "could not unmarshal " ++ valPart ++ intoPart ++ tagPart ++ tailPart

/-- C6 counterexample: the claim renders the `into '...' (type ...):
<reason>` block unconditionally, but `errChain.Error` emits it only when
the root frame's value is addressable — the top-level non-pointer frame
(whose `reflect.ValueOf` argument is not addressable) renders as the bare
`could not unmarshal `. -/
theorem c6_counterexample :
    UnmarshalSelection (fun _ _ => []) ⟨[HNode.text "x"]⟩ .int (.int 0)
      = .error (.inl (.mk none "" none (some (.int, false)) nonPointer "")) ∧
    (CannotUnmarshalError.mk none "" none (some (.int, false)) nonPointer "").ErrorMsg
      = "could not unmarshal " ∧
    (CannotUnmarshalError.mk none "" none (some (.int, false)) nonPointer "").ErrorMsg
      ≠ "could not unmarshal into 'int' (type int): non-pointer value" := by
  refine ⟨by simp [UnmarshalSelection, GoTyp.isPtr], ?_, ?_⟩
  · simp [CannotUnmarshalError.ErrorMsg, CannotUnmarshalError.unwind, ErrChain.Error,
      tPath, defaultFrame, CannotUnmarshalError.V, CannotUnmarshalError.Val,
      CannotUnmarshalError.XPath, CannotUnmarshalError.Reason]
  · intro hbad
    have h1 : (CannotUnmarshalError.mk none "" none (some (.int, false)) nonPointer
        "").ErrorMsg = "could not unmarshal " := by
      simp [CannotUnmarshalError.ErrorMsg, CannotUnmarshalError.unwind, ErrChain.Error,
        tPath, defaultFrame, CannotUnmarshalError.V, CannotUnmarshalError.Val,
        CannotUnmarshalError.XPath, CannotUnmarshalError.Reason]
    rw [h1] at hbad
    exact absurd hbad (by decide)

/-- C6 (amended): `unwind` walks cause links while the cause is a frame,
stops at the first non-frame cause as the tail, and captures the deepest
non-empty literal; the rendered message follows the claimed template,
with the `into '<TypeName><path>' (type <leafType>): <reason>` block
present exactly when the root frame's value is addressable (and the path
emitting `.Name`/`[i]` as claimed on chains whose name hops sit on record
values, the only kind the decoder builds). -/
theorem c6_error_chain_rendering (e : CannotUnmarshalError)
    (hrec : ∀ fr ∈ chainOf e, ∀ name, fr.FldOrIdx = some (.inl name) →
      ∃ fs b, fr.V = some (.strukt fs, b)) :
    (e.unwind.chain = chainOf e ∧ e.unwind.tail = tailOf e ∧
      e.unwind.val = deepVal e) ∧
    e.ErrorMsg = claimMsg e := by
  refine ⟨by rw [unwind_eq e]; exact ⟨rfl, rfl, rfl⟩, ?_⟩
  show e.unwind.Error = claimMsg e
  rw [unwind_eq e]
  simp only [ErrChain.Error, claimMsg, tPath_eq_claimPath (chainOf e) hrec]
  by_cases hval : deepVal e = "" <;>
    rcases hhead : (List.headD (chainOf e) defaultFrame).V with _ | ⟨ty, b⟩ <;>
      (try cases b) <;>
      by_cases hxp : (List.getLastD (chainOf e) defaultFrame).XPath = "" <;>
        rcases htail : tailOf e with _ | tl <;>
          simp_all [String.append_assoc, append_empty_str, empty_append_str] <;>
            simp [← String.append_assoc,
              show ("could not unmarshal " ++ " tag: '" : String)
                = "could not unmarshal  tag: '" from rfl]

/-- Witness for C6: a two-level chain (a record wrap around a literal
frame with a raw tail) renders per the template. -/
theorem c6_error_chain_rendering_witness :
    ((CannotUnmarshalError.mk
        (some (.inl (.mk (some (.inr "boom")) "5" none (some (.int, true))
          typeConversionError ".//x")))
        "" (some (.inl "Foo")) (some (.strukt [.mk "Foo" ".//x" "" .int], true))
        typeConversionError ".//x").unwind.chain
      = chainOf (.mk
        (some (.inl (.mk (some (.inr "boom")) "5" none (some (.int, true))
          typeConversionError ".//x")))
        "" (some (.inl "Foo")) (some (.strukt [.mk "Foo" ".//x" "" .int], true))
        typeConversionError ".//x") ∧
     (CannotUnmarshalError.mk
        (some (.inl (.mk (some (.inr "boom")) "5" none (some (.int, true))
          typeConversionError ".//x")))
        "" (some (.inl "Foo")) (some (.strukt [.mk "Foo" ".//x" "" .int], true))
        typeConversionError ".//x").unwind.tail
      = tailOf (.mk
        (some (.inl (.mk (some (.inr "boom")) "5" none (some (.int, true))
          typeConversionError ".//x")))
        "" (some (.inl "Foo")) (some (.strukt [.mk "Foo" ".//x" "" .int], true))
        typeConversionError ".//x") ∧
     (CannotUnmarshalError.mk
        (some (.inl (.mk (some (.inr "boom")) "5" none (some (.int, true))
          typeConversionError ".//x")))
        "" (some (.inl "Foo")) (some (.strukt [.mk "Foo" ".//x" "" .int], true))
        typeConversionError ".//x").unwind.val
      = deepVal (.mk
        (some (.inl (.mk (some (.inr "boom")) "5" none (some (.int, true))
          typeConversionError ".//x")))
        "" (some (.inl "Foo")) (some (.strukt [.mk "Foo" ".//x" "" .int], true))
        typeConversionError ".//x")) ∧
    (CannotUnmarshalError.mk
        (some (.inl (.mk (some (.inr "boom")) "5" none (some (.int, true))
          typeConversionError ".//x")))
        "" (some (.inl "Foo")) (some (.strukt [.mk "Foo" ".//x" "" .int], true))
        typeConversionError ".//x").ErrorMsg
      = claimMsg (.mk
        (some (.inl (.mk (some (.inr "boom")) "5" none (some (.int, true))
          typeConversionError ".//x")))
        "" (some (.inl "Foo")) (some (.strukt [.mk "Foo" ".//x" "" .int], true))
        typeConversionError ".//x") := by
  apply c6_error_chain_rendering
  intro fr hfr name hname
  simp only [chainOf, List.mem_cons, List.mem_singleton] at hfr
  rcases hfr with h | h | h
  · subst h
    exact ⟨[.mk "Foo" ".//x" "" .int], true, rfl⟩
  · subst h
    simp [CannotUnmarshalError.FldOrIdx] at hname
  · simp at h

end Goxtag
